import Mathlib

/-!
Verification of the mario data-pipeline validation engine.

This file shallowly embeds the parts of the repository that the claims
refer to, chiefly `mario/validation.py` (the `Validator` base class and its
`DataFrameValidator`, `HyperValidator` and `SqlValidator` backends),
`mario/metadata.py` (the `Item`/`Metadata` property-bag model and its JSON
round trip) and `mario/data_extractor.py` (the `StreamingDataExtractor`).

Modelling conventions:
* cell values are `Value` (null sentinel, string, integer); floating point
  is out of scope and numeric data is modelled over `Int`;
* Python `None` results are `Option`, raised exceptions are `Except` or
  `Option` failure, and the mutable `errors`/`warnings` lists are passed
  as explicit state;
* external libraries (pandas, hyper, SQL) are modelled at the interface
  the source uses: a data frame is a list of named, typed columns, the
  pandas `unique` is first-occurrence deduplication, and `re.match` is an
  opaque boolean function passed as a parameter.
-/

namespace Mario

/-- A cell value as seen by the validator.  `null` is the single null
sentinel that `DataFrameValidator.__get_column_values__` normalises
`pd.NA`/`None` to. -/
inductive Value where
  | null : Value
  | str : String → Value
  | int : Int → Value
deriving DecidableEq, Repr

/-- Python `str(value)` as used in validation messages
(`str(None) = "None"`). -/
def Value.render : Value → String
  | .null => "None"
  | .str s => s
  | .int n => toString n

/-- The `DataTypes` enum of validation.py (lines 11-21). -/
inductive DataTypes where
  | TEXT | DATE | INT | DOUBLE | DATETIME | OBJECT
deriving DecidableEq, Repr

/-- Python `f"{member}"` on a `DataTypes` enum member. -/
def DataTypes.render : DataTypes → String
  | .TEXT => "DataTypes.TEXT"
  | .DATE => "DataTypes.DATE"
  | .INT => "DataTypes.INT"
  | .DOUBLE => "DataTypes.DOUBLE"
  | .DATETIME => "DataTypes.DATETIME"
  | .OBJECT => "DataTypes.OBJECT"

/-- One step of first-occurrence deduplication. -/
def pdUniqueStep (acc : List Value) (x : Value) : List Value :=
  if x ∈ acc then acc else acc ++ [x]

/-- pandas `Series.unique()`: the distinct values of a column in order of
first occurrence (used by `DataFrameValidator.__get_column_values__`,
validation.py lines 278-282). -/
def pdUnique (l : List Value) : List Value :=
  l.foldl pdUniqueStep []

/-- A metadata `Item` as read by the validator.  The source stores a
dynamic property bag (`mario/base.py`); the validator only ever reads the
keys below through `get_property`, which returns `None` for an absent
key, so each recognised key is modelled as an `Option` field.  (The full
dynamic bag is modelled separately for the serialisation claims, as
`SItem`.) -/
structure Item where
  name : String
  output_name : Option String := none
  physical_column_name : Option String := none
  formula : Option String := none
  domain : Option (List Value) := none
  range : Option (Int × Int) := none
  pattern : Option String := none
  datatype : Option DataTypes := none
deriving DecidableEq, Repr

/-- `Validator.__get_column_name__` (validation.py lines 39-46):
`output_name` if set, else `physical_column_name` if set, else the item
name. -/
def Item.get_column_name (item : Item) : String :=
  match item.output_name with
  | some s => s
  | none =>
    match item.physical_column_name with
    | some s => s
    | none => item.name

/-- `Metadata` as read by the validator: an ordered list of items. -/
structure Metadata where
  items : List Item
deriving DecidableEq, Repr

/-- `Metadata.get_metadata` (metadata.py lines 48-52): first item with the
given name, else `None`. -/
def Metadata.get_metadata (m : Metadata) (name : String) : Option Item :=
  m.items.find? (fun i => i.name == name)

/-- `DatasetSpecification` (dataset_specification.py): dimension and
measure field names. -/
structure DatasetSpecification where
  dimensions : List String
  measures : List String
deriving DecidableEq, Repr

/-- `DatasetSpecification.items` (dataset_specification.py lines 70-72):
dimensions followed by measures. -/
def DatasetSpecification.items (s : DatasetSpecification) : List String :=
  s.dimensions ++ s.measures

/-! ### Validation messages -/

def msgMissing (name : String) : String :=
  "Validation error: '" ++ name ++ "' in specification is missing from dataset"

def msgNullWarn (name : String) : String :=
  "Validation warning: '" ++ name ++ "' contains NULLs"

def msgNullErr (name : String) : String :=
  "Validation error: '" ++ name ++ "' contains NULLs"

def msgDomainErr (v : Value) (name : String) : String :=
  "Validation error: '" ++ v.render ++ "' is not in domain of '" ++ name ++ "'"

def msgDomainWarn (v : Value) (name : String) : String :=
  "Validation warning: '" ++ v.render ++ "' is in domain of '" ++ name ++
    "' but not present in the data"

def msgRangeLess (name : String) (observed declared : Int) : String :=
  "Validation error: '" ++ name ++ "': '" ++ toString observed ++
    "' is less than '" ++ toString declared ++ "'"

def msgRangeGreater (name : String) (observed declared : Int) : String :=
  "Validation error: '" ++ name ++ "': '" ++ toString observed ++
    "' is greater than '" ++ toString declared ++ "'"

def msgPattern (name : String) (v : Value) (pat : String) : String :=
  "Validation error: '" ++ name ++ "': '" ++ v.render ++
    "' does not match the pattern '" ++ pat ++ "'"

def msgNoQuality (name : String) : String :=
  "Validation warning: '" ++ name ++ "' has no quality rules."

def msgTypeWrong (name expected actual : String) : String :=
  "Validation error: '" ++ name ++ "' is of the wrong type - expected " ++
    expected ++ ", actual " ++ actual

def msgTypeWarnDate (name expected actual : String) : String :=
  "Validation warning: '" ++ name ++ "': expected " ++ expected ++
    " but was " ++ actual

def msgTypeWarnObject (name expected actual : String) : String :=
  "Validation warning: '" ++ name ++ "': expected " ++ expected ++
    " but was " ++ actual ++
    ". This is probably due to a limitation of Pandas not having a native 'Date' type"

/-! ### Per-field checks (`Validator`, validation.py)

Each check appends to the validator's `errors`/`warnings` lists; the pure
embedding returns the appended entries, in order, and the driver
(`validate_data_item`) concatenates them onto the running state. -/

/-- `Validator.check_nulls` (lines 162-168): warn if nulls are allowed,
error otherwise.  `__contains_nulls__` (line 62) tests the null sentinel
against `__get_column_values__`. -/
def check_nulls (item : Item) (col : List Value) (allow_nulls : Bool) :
    List String × List String :=
  if Value.null ∈ pdUnique col then
    if allow_nulls then ([], [msgNullWarn item.name])
    else ([msgNullErr item.name], [])
  else ([], [])

/-- `Validator.check_domain` (lines 170-180): one error per distinct data
value outside the domain, one warning per declared value missing from
the data.  `dataDomain` is the output of `__get_column_values__`. -/
def check_domain (item : Item) (dataDomain : List Value) :
    List String × List String :=
  match item.domain with
  | none => ([], [])
  | some metaDomain =>
    ((dataDomain.filter (fun e => decide (e ∉ metaDomain))).map
        (fun e => msgDomainErr e item.name),
     (metaDomain.filter (fun e => decide (e ∉ dataDomain))).map
        (fun e => msgDomainWarn e item.name))

/-- `Validator.check_range` (lines 182-191).  `minmax` is the output of
`__get_minimum_maximum_values__`; `none` models the pandas behaviour on a
column with no numeric values (`min`/`max` are NaN and both comparisons
are false, so nothing is appended). -/
def check_range (item : Item) (minmax : Option (Int × Int)) : List String :=
  match item.range with
  | none => []
  | some (lo, hi) =>
    match minmax with
    | none => []
    | some (dmin, dmax) =>
      (if dmin < lo then [msgRangeLess item.name dmin lo] else []) ++
      (if dmax > hi then [msgRangeGreater item.name dmax hi] else [])

/-- `Validator.check_pattern_match` (lines 193-202): one error per value
that is not `None` and fails `re.match`.  `reMatch pat s` models
`re.match(pattern, s) is not None`. -/
def check_pattern_match (reMatch : String → String → Bool) (item : Item)
    (values : List Value) : List String :=
  match item.pattern with
  | none => []
  | some pat =>
    (values.filter (fun v => decide (v ≠ Value.null) && !reMatch pat v.render)).map
      (fun v => msgPattern item.name v pat)

/-- `Validator.check_quality_checks` (lines 204-210): warn when the item
declares no formula, range, domain or pattern. -/
def check_quality_checks (item : Item) : List String :=
  match item.formula, item.range, item.domain, item.pattern with
  | none, none, none, none => [msgNoQuality item.name]
  | _, _, _, _ => []

/-- `Validator.check_data_type` (lines 134-156).  `actual` is the output
of `__get_column_data_type__`: either a recognised `DataTypes` member or
the raw backend type string (which compares unequal to every enum member,
as in Python). -/
def check_data_type (item : Item) (actual : Sum DataTypes String) :
    List String × List String :=
  match item.datatype with
  | none => ([], [])
  | some expected =>
    match actual with
    | .inl a =>
      if a = expected then ([], [])
      else if a = DataTypes.DATETIME ∧ expected = DataTypes.DATE then
        ([], [msgTypeWarnDate item.name expected.render a.render])
      else if a = DataTypes.OBJECT ∧ expected = DataTypes.DATE then
        ([], [msgTypeWarnObject item.name expected.render a.render])
      else ([msgTypeWrong item.name expected.render a.render], [])
    | .inr s => ([msgTypeWrong item.name expected.render s], [])

/-! ### The in-memory data frame backend (`DataFrameValidator`) -/

/-- A pandas column: its dtype string (already lower-cased, as by
`str(dtype).lower()`) and its cell values. -/
structure Column where
  dtype : String
  values : List Value
deriving DecidableEq, Repr

/-- An in-memory data frame: named columns in order. -/
structure Frame where
  cols : List (String × Column)
deriving DecidableEq, Repr

def Frame.columns (f : Frame) : List String :=
  f.cols.map (fun c => c.1)

def Frame.col? (f : Frame) (name : String) : Option Column :=
  (f.cols.find? (fun c => c.1 == name)).map (fun c => c.2)

/-- The values of a named column.  All uses are guarded by the presence
check, so the missing-column `KeyError` branch is modelled as `[]`. -/
def Frame.colValues (f : Frame) (name : String) : List Value :=
  ((f.col? name).map (fun c => c.values)).getD []

/-- The dtype string of a named column (guarded by the presence check). -/
def Frame.colDtype (f : Frame) (name : String) : String :=
  ((f.col? name).map (fun c => c.dtype)).getD ""

/-- `DataFrameValidator.__get_column_data_type__` (lines 263-276): map the
pandas dtype string onto `DataTypes`, passing unknown dtypes through as
the raw string. -/
def get_column_data_type (dtype : String) : Sum DataTypes String :=
  if dtype = "category" ∨ dtype = "string" then .inl DataTypes.TEXT
  else if dtype = "float64" then .inl DataTypes.DOUBLE
  else if dtype = "int" ∨ dtype = "int64" then .inl DataTypes.INT
  else if dtype = "datetime64" ∨ dtype = "datetime64[ns]" then .inl DataTypes.DATETIME
  else if dtype = "object" then .inl DataTypes.OBJECT
  else .inr dtype

/-- The integer values of a column, in order.  Models the numeric content
pandas aggregates over: nulls (NaN) are skipped by pandas `min`/`max`. -/
def columnInts (col : List Value) : List Int :=
  col.filterMap (fun v => match v with | .int n => some n | _ => none)

/-- `DataFrameValidator.__get_minimum_maximum_values__` (lines 284-288)
for a numeric column: pandas `min`/`max`, skipping nulls; `none` when the
column has no numeric values (pandas would yield NaN). -/
def get_minimum_maximum_values (col : List Value) : Option (Int × Int) :=
  match columnInts col with
  | [] => none
  | n :: ns => some (ns.foldl min n, ns.foldl max n)

/-- `DataFrameValidator.check_column_present` (lines 294-301): for a
non-calculated item, look the resolved column name up in the frame's
columns, recording an error when absent; calculated items (with a
`formula`) return false without an error. -/
def check_column_present (f : Frame) (item : Item) : List String × Bool :=
  match item.formula with
  | none =>
    let column := item.get_column_name
    if column ∈ f.columns then ([], true)
    else ([msgMissing item.name], false)
  | some _ => ([], false)

/-- `HyperValidator.check_column_present` (lines 354-367):
`check_column_exists` (hyper_utils.py) tests membership of the resolved
column name in the hyper table's column list. -/
def hyper_check_column_present (hyperColumns : List String) (item : Item) :
    List String × Bool :=
  match item.formula with
  | none =>
    let column := item.get_column_name
    if column ∈ hyperColumns then ([], true)
    else ([msgMissing item.name], false)
  | some _ => ([], false)

/-- `SqlValidator.check_column_present` (lines 488-498): the column names
are read from `INFORMATION_SCHEMA.COLUMNS`, and membership is tested for
`item.name` — the logical name, not the resolved column name. -/
def sql_check_column_present (sqlColumns : List String) (item : Item) :
    List String × Bool :=
  match item.formula with
  | some _ => ([], false)
  | none =>
    if item.name ∈ sqlColumns then ([], true)
    else ([msgMissing item.name], false)

/-! ### The validation driver -/

/-- The validator's accumulated run state (validation.py lines 36-37). -/
structure VState where
  errors : List String
  warnings : List String
deriving DecidableEq, Repr

/-- The errors and warnings one item contributes in
`Validator.validate_data_item` (lines 212-220) over a data frame: the
presence check, then — only when the column is present — nulls, domain,
range, quality coverage, data type and pattern, in source order. -/
def item_findings (reMatch : String → String → Bool) (f : Frame) (meta : Item)
    (allow_nulls : Bool) : List String × List String :=
  let pres := check_column_present f meta
  if pres.2 then
    let colName := meta.get_column_name
    let col := f.colValues colName
    let nulls := check_nulls meta col allow_nulls
    let dom := check_domain meta (pdUnique col)
    let rng := check_range meta (get_minimum_maximum_values col)
    let qual := check_quality_checks meta
    let dtyp := check_data_type meta (get_column_data_type (f.colDtype colName))
    let patt := check_pattern_match reMatch meta (pdUnique col)
    (pres.1 ++ nulls.1 ++ dom.1 ++ rng ++ dtyp.1 ++ patt,
     nulls.2 ++ dom.2 ++ qual ++ dtyp.2)
  else (pres.1, [])

/-- `Validator.validate_data_item` (lines 212-220) for the data frame
backend: resolve the item in the metadata (Python raises
`AttributeError` when resolution fails, modelled as `none`), then append
the item's findings to the run state. -/
def validate_data_item (reMatch : String → String → Bool) (f : Frame)
    (md : Metadata) (itemName : String) (allow_nulls : Bool) (s : VState) :
    Option VState :=
  match md.get_metadata itemName with
  | none => none
  | some meta =>
    let ew := item_findings reMatch f meta allow_nulls
    some ⟨s.errors ++ ew.1, s.warnings ++ ew.2⟩

/-- The findings contributed by a named specification item (empty when the
item does not resolve — that case is excluded by the theorems, as Python
raises there). -/
def resolved_findings (reMatch : String → String → Bool) (f : Frame)
    (md : Metadata) (allow_nulls : Bool) (itemName : String) :
    List String × List String :=
  match md.get_metadata itemName with
  | some meta => item_findings reMatch f meta allow_nulls
  | none => ([], [])

/-- A `DataFrameValidator` (validation.py lines 250-261, state from lines
30-37): specification, metadata, backing frame, and the accumulated
errors and warnings. -/
structure DataFrameValidator where
  dataset_specification : DatasetSpecification
  metadata : Metadata
  data : Frame
  errors : List String
  warnings : List String
deriving DecidableEq, Repr

/-- `Validator.validate_data` (lines 222-247) with the default
`check_hierarchies := false` and `detect_anomalies := false` (the
optional hierarchy pass is modelled separately as `hierarchyLoop`, and
the anomaly pass computes floating-point z-scores, outside this model):
run `validate_data_item` for every specification item, emit every warning
then every error to the log, and raise `ValueError` exactly when the
error list is non-empty.  Returns the final run state, the log lines in
order, and the raise/return outcome. -/
def validate_data (reMatch : String → String → Bool) (v : DataFrameValidator)
    (allow_nulls : Bool) : Option (VState × List String × Except String Bool) := do
  let s ← v.dataset_specification.items.foldlM
    (fun st it => validate_data_item reMatch v.data v.metadata it allow_nulls st)
    ⟨v.errors, v.warnings⟩
  let log := s.warnings ++ s.errors
  if s.errors.length ≠ 0 then
    pure (s, log, Except.error "Data validation failed - check the logs for details")
  else
    pure (s, log, Except.ok true)

/-- The concatenated errors contributed by a run of `validate_data` over
the given specification items. -/
def all_errors (reMatch : String → String → Bool) (f : Frame) (md : Metadata)
    (allow_nulls : Bool) (items : List String) : List String :=
  (items.map fun it => (resolved_findings reMatch f md allow_nulls it).1).join

/-- The concatenated warnings contributed by a run of `validate_data` over
the given specification items. -/
def all_warnings (reMatch : String → String → Bool) (f : Frame) (md : Metadata)
    (allow_nulls : Bool) (items : List String) : List String :=
  (items.map fun it => (resolved_findings reMatch f md allow_nulls it).2).join

/-! ### Basic lemmas -/

theorem mem_foldl_pdUniqueStep (l : List Value) :
    ∀ (acc : List Value) (v : Value),
      v ∈ l.foldl pdUniqueStep acc ↔ v ∈ acc ∨ v ∈ l := by
  induction l with
  | nil => intro acc v; simp
  | cons x xs ih =>
    intro acc v
    rw [List.foldl_cons, ih]
    unfold pdUniqueStep
    by_cases hx : x ∈ acc
    · simp only [if_pos hx, List.mem_cons]
      constructor
      · rintro (h | h) <;> tauto
      · rintro (h | rfl | h) <;> tauto
    · simp only [if_neg hx, List.mem_append, List.mem_singleton, List.mem_cons]
      tauto

theorem pdUnique_mem (l : List Value) (v : Value) : v ∈ pdUnique l ↔ v ∈ l := by
  have h := mem_foldl_pdUniqueStep l [] v
  simpa [pdUnique] using h

theorem nodup_foldl_pdUniqueStep (l : List Value) :
    ∀ acc : List Value, acc.Nodup → (l.foldl pdUniqueStep acc).Nodup := by
  induction l with
  | nil => intro acc h; simpa using h
  | cons x xs ih =>
    intro acc h
    rw [List.foldl_cons]
    unfold pdUniqueStep
    by_cases hx : x ∈ acc
    · rw [if_pos hx]; exact ih acc h
    · rw [if_neg hx]
      refine ih _ ?_
      simp [List.nodup_append, h, hx]

theorem pdUnique_nodup (l : List Value) : (pdUnique l).Nodup :=
  nodup_foldl_pdUniqueStep l [] List.nodup_nil

theorem pdUnique_count (l : List Value) (v : Value) :
    (pdUnique l).count v = if v ∈ l then 1 else 0 := by
  by_cases h : v ∈ l
  · rw [if_pos h]
    exact List.count_eq_one_of_mem (pdUnique_nodup l) ((pdUnique_mem l v).mpr h)
  · rw [if_neg h]
    exact List.count_eq_zero_of_not_mem (fun hc => h ((pdUnique_mem l v).mp hc))

/-- Running the per-item checks over a list of items from a given state:
each item appends its findings, independently of the state accumulated so
far. -/
theorem foldlM_validate_items (reMatch : String → String → Bool) (f : Frame)
    (md : Metadata) (an : Bool) :
    ∀ (items : List String) (s : VState),
      (∀ it ∈ items, (md.get_metadata it).isSome) →
      items.foldlM
          (fun st it => validate_data_item reMatch f md it an st) s =
        some ⟨s.errors ++ all_errors reMatch f md an items,
              s.warnings ++ all_warnings reMatch f md an items⟩ := by
  intro items
  induction items with
  | nil => intro s _; simp [all_errors, all_warnings]
  | cons it rest ih =>
    intro s h
    obtain ⟨meta, hmeta⟩ := Option.isSome_iff_exists.mp (h it (by simp))
    rw [List.foldlM_cons]
    have hstep : validate_data_item reMatch f md it an s =
        some ⟨s.errors ++ (item_findings reMatch f meta an).1,
              s.warnings ++ (item_findings reMatch f meta an).2⟩ := by
      simp [validate_data_item, hmeta]
    rw [hstep]
    have hrest : ∀ x ∈ rest, (md.get_metadata x).isSome := by
      intro x hx; exact h x (by simp [hx])
    simp only [Option.bind_eq_bind, Option.some_bind]
    rw [ih _ hrest]
    simp [all_errors, all_warnings, resolved_findings, hmeta, List.append_assoc]

/-- The final run state of `validate_data`: the prior errors and warnings
with every item's findings appended. -/
theorem validate_data_state (reMatch : String → String → Bool)
    (v : DataFrameValidator) (allow_nulls : Bool)
    (hres : ∀ it ∈ v.dataset_specification.items,
      (v.metadata.get_metadata it).isSome) :
    (validate_data reMatch v allow_nulls).map (fun r => r.1) =
      some ⟨v.errors ++ all_errors reMatch v.data v.metadata allow_nulls
              v.dataset_specification.items,
            v.warnings ++ all_warnings reMatch v.data v.metadata allow_nulls
              v.dataset_specification.items⟩ := by
  unfold validate_data
  rw [foldlM_validate_items reMatch v.data v.metadata allow_nulls
    v.dataset_specification.items ⟨v.errors, v.warnings⟩ hres]
  simp only [Option.bind_eq_bind, Option.some_bind]
  split <;> rfl

/-! ### Claim theorems -/

/-- C1: `validate_data` runs the per-field checks for every item in
`dataset_specification.items` (each item contributes its findings
regardless of errors recorded for earlier items), logs all warnings then
all errors, raises the validation failure exactly when the accumulated
error list is non-empty after all checks, and returns true otherwise;
warnings alone never cause the raise. -/
theorem validate_data_checks_all_items_logs_and_raises_iff_errors
    (reMatch : String → String → Bool) (v : DataFrameValidator)
    (allow_nulls : Bool)
    (hres : ∀ it ∈ v.dataset_specification.items,
      (v.metadata.get_metadata it).isSome) :
    validate_data reMatch v allow_nulls =
      some (⟨v.errors ++ all_errors reMatch v.data v.metadata allow_nulls
               v.dataset_specification.items,
             v.warnings ++ all_warnings reMatch v.data v.metadata allow_nulls
               v.dataset_specification.items⟩,
            (v.warnings ++ all_warnings reMatch v.data v.metadata allow_nulls
               v.dataset_specification.items) ++
            (v.errors ++ all_errors reMatch v.data v.metadata allow_nulls
               v.dataset_specification.items),
            if v.errors ++ all_errors reMatch v.data v.metadata allow_nulls
                 v.dataset_specification.items = [] then
              Except.ok true
            else
              Except.error "Data validation failed - check the logs for details") := by
  unfold validate_data
  rw [foldlM_validate_items reMatch v.data v.metadata allow_nulls
    v.dataset_specification.items ⟨v.errors, v.warnings⟩ hres]
  simp only [Option.bind_eq_bind, Option.some_bind]
  by_cases h : v.errors ++ all_errors reMatch v.data v.metadata allow_nulls
      v.dataset_specification.items = []
  · rw [if_pos h]
    have hlen : ¬ (v.errors ++ all_errors reMatch v.data v.metadata allow_nulls
        v.dataset_specification.items).length ≠ 0 := by
      simp [h]
    rw [if_neg hlen]
    rfl
  · rw [if_neg h]
    have hlen : (v.errors ++ all_errors reMatch v.data v.metadata allow_nulls
        v.dataset_specification.items).length ≠ 0 := by
      simpa [List.length_eq_zero] using h
    rw [if_pos hlen]
    rfl

/-- A one-item validator used to witness the `validate_data` theorems:
the column is present, contains no nulls and the item declares no quality
rules, so the run produces one warning and no errors. -/
def witnessValidator : DataFrameValidator :=
  { dataset_specification := ⟨["a"], []⟩
    metadata := ⟨[{ name := "a" }]⟩
    data := ⟨[("a", ⟨"int64", [Value.int 1]⟩)]⟩
    errors := []
    warnings := [] }

/-- C1 witness: the theorem applied to `witnessValidator`. -/
theorem validate_data_checks_all_items_witness :
    (∀ it ∈ witnessValidator.dataset_specification.items,
      (witnessValidator.metadata.get_metadata it).isSome) ∧
    validate_data (fun _ _ => true) witnessValidator true =
      some (⟨[], [msgNoQuality "a"]⟩, [msgNoQuality "a"], Except.ok true) := by
  refine ⟨by decide, ?_⟩
  rw [validate_data_checks_all_items_logs_and_raises_iff_errors
    (fun _ _ => true) witnessValidator true (by decide)]
  rfl

/-- C2: an item that is not calculated and whose resolved column is absent
from the frame contributes exactly the single missing-column error, and
none of the other checks run for it. -/
theorem missing_column_yields_single_error_and_skips_other_checks
    (reMatch : String → String → Bool) (f : Frame) (md : Metadata)
    (itemName : String) (meta : Item) (allow_nulls : Bool) (s : VState)
    (hres : md.get_metadata itemName = some meta)
    (hform : meta.formula = none)
    (habsent : meta.get_column_name ∉ f.columns) :
    validate_data_item reMatch f md itemName allow_nulls s =
      some ⟨s.errors ++ [msgMissing meta.name], s.warnings⟩ := by
  simp [validate_data_item, hres, item_findings, check_column_present, hform,
    habsent]

/-- A metadata/frame pair whose only item is missing from the frame. -/
def missingColumnValidator : DataFrameValidator :=
  { dataset_specification := ⟨["gone"], []⟩
    metadata := ⟨[{ name := "gone" }]⟩
    data := ⟨[("other", ⟨"int64", [Value.int 1]⟩)]⟩
    errors := []
    warnings := [] }

/-- C2 witness: the theorem applied to a concrete missing column. -/
theorem missing_column_witness :
    validate_data_item (fun _ _ => true) missingColumnValidator.data
        missingColumnValidator.metadata "gone" true ⟨[], []⟩ =
      some ⟨[msgMissing "gone"], []⟩ := by
  rw [missing_column_yields_single_error_and_skips_other_checks
    (fun _ _ => true) missingColumnValidator.data missingColumnValidator.metadata
    "gone" { name := "gone" } true ⟨[], []⟩ (by decide) rfl (by decide)]
  rfl

theorem append_self_cancel_iff (a b : List String) :
    a ++ b ++ b = a ++ b ↔ b = [] := by
  constructor
  · intro h
    have h1 : a ++ (b ++ b) = a ++ b := by simpa [List.append_assoc] using h
    have h2 : b ++ b = b := List.append_cancel_left h1
    have h3 : b.length + b.length = b.length := by
      simpa using congrArg List.length h2
    have h4 : b.length = 0 := by omega
    exact List.length_eq_zero.mp h4
  · rintro rfl; simp

/-- The validator used by the C4 theorems (same shape as
`witnessValidator`: one clean item with no quality rules). -/
def witnessRepeatValidator : DataFrameValidator :=
  { dataset_specification := ⟨["a"], []⟩
    metadata := ⟨[{ name := "a" }]⟩
    data := ⟨[("a", ⟨"int64", [Value.int 1]⟩)]⟩
    errors := []
    warnings := [] }

/-- C4 counterexample: a validator whose single item has no quality rules
produces one warning on the first `validate_data(allow_nulls=True)` call;
the second call on the same instance appends the warning again, so the
warning lists after the two calls are not identical. -/
theorem second_validate_data_call_duplicates_warnings_counterexample :
    validate_data (fun _ _ => true) witnessRepeatValidator true =
      some (⟨[], [msgNoQuality "a"]⟩, [msgNoQuality "a"], Except.ok true) ∧
    validate_data (fun _ _ => true)
        { witnessRepeatValidator with warnings := [msgNoQuality "a"] } true =
      some (⟨[], [msgNoQuality "a", msgNoQuality "a"]⟩,
            [msgNoQuality "a", msgNoQuality "a"], Except.ok true) ∧
    [msgNoQuality "a", msgNoQuality "a"] ≠ [msgNoQuality "a"] :=
  ⟨rfl, rfl, by decide⟩

/-- C4 (amended): errors and warnings accumulate across calls on the same
instance — running `validate_data(allow_nulls=True)` twice appends the
run's findings twice, and the two calls yield identical lists exactly
when the first call produced no errors and no warnings. -/
theorem validate_data_twice_appends_findings_twice
    (reMatch : String → String → Bool) (v : DataFrameValidator)
    (hres : ∀ it ∈ v.dataset_specification.items,
      (v.metadata.get_metadata it).isSome) :
    (validate_data reMatch v true).map (fun r => r.1) =
      some ⟨v.errors ++ all_errors reMatch v.data v.metadata true
              v.dataset_specification.items,
            v.warnings ++ all_warnings reMatch v.data v.metadata true
              v.dataset_specification.items⟩ ∧
    (validate_data reMatch
        { v with
          errors := v.errors ++ all_errors reMatch v.data v.metadata true
            v.dataset_specification.items
          warnings := v.warnings ++ all_warnings reMatch v.data v.metadata true
            v.dataset_specification.items } true).map (fun r => r.1) =
      some ⟨v.errors ++ all_errors reMatch v.data v.metadata true
              v.dataset_specification.items ++
              all_errors reMatch v.data v.metadata true
              v.dataset_specification.items,
            v.warnings ++ all_warnings reMatch v.data v.metadata true
              v.dataset_specification.items ++
              all_warnings reMatch v.data v.metadata true
              v.dataset_specification.items⟩ ∧
    ((v.errors ++ all_errors reMatch v.data v.metadata true
        v.dataset_specification.items ++
        all_errors reMatch v.data v.metadata true
        v.dataset_specification.items =
      v.errors ++ all_errors reMatch v.data v.metadata true
        v.dataset_specification.items ∧
      v.warnings ++ all_warnings reMatch v.data v.metadata true
        v.dataset_specification.items ++
        all_warnings reMatch v.data v.metadata true
        v.dataset_specification.items =
      v.warnings ++ all_warnings reMatch v.data v.metadata true
        v.dataset_specification.items) ↔
     (all_errors reMatch v.data v.metadata true
        v.dataset_specification.items = [] ∧
      all_warnings reMatch v.data v.metadata true
        v.dataset_specification.items = [])) := by
  refine ⟨validate_data_state reMatch v true hres, ?_, ?_⟩
  · exact validate_data_state reMatch
      { v with
        errors := v.errors ++ all_errors reMatch v.data v.metadata true
          v.dataset_specification.items
        warnings := v.warnings ++ all_warnings reMatch v.data v.metadata true
          v.dataset_specification.items } true hres
  · rw [append_self_cancel_iff, append_self_cancel_iff]

/-- C4 (amended) witness. -/
theorem validate_data_twice_appends_findings_twice_witness :
    (validate_data (fun _ _ => true) witnessRepeatValidator true).map
        (fun r => r.1) =
      some ⟨[], [msgNoQuality "a"]⟩ := by
  have h := validate_data_twice_appends_findings_twice (fun _ _ => true)
    witnessRepeatValidator (by decide)
  exact h.1.trans (by decide)

/-! ### Minimum and maximum of a column -/

theorem foldl_min_le_init (ns : List Int) : ∀ n : Int, ns.foldl min n ≤ n := by
  induction ns with
  | nil => intro n; simp
  | cons a as ih =>
    intro n
    rw [List.foldl_cons]
    exact le_trans (ih (min n a)) (min_le_left n a)

theorem foldl_min_le_mem (ns : List Int) :
    ∀ (n x : Int), x ∈ ns → ns.foldl min n ≤ x := by
  induction ns with
  | nil => intro n x hx; simp at hx
  | cons a as ih =>
    intro n x hx
    rw [List.foldl_cons]
    rcases List.mem_cons.mp hx with rfl | h
    · exact le_trans (foldl_min_le_init as (min n x)) (min_le_right n x)
    · exact ih _ x h

theorem foldl_min_mem (ns : List Int) : ∀ n : Int, ns.foldl min n ∈ n :: ns := by
  induction ns with
  | nil => intro n; simp
  | cons a as ih =>
    intro n
    rw [List.foldl_cons]
    rcases List.mem_cons.mp (ih (min n a)) with h | h
    · rcases min_choice n a with hm | hm
      · rw [h, hm]; exact List.mem_cons_self _ _
      · rw [h, hm]; exact List.mem_cons_of_mem _ (List.mem_cons_self _ _)
    · exact List.mem_cons_of_mem _ (List.mem_cons_of_mem _ h)

theorem foldl_max_init_le (ns : List Int) : ∀ n : Int, n ≤ ns.foldl max n := by
  induction ns with
  | nil => intro n; simp
  | cons a as ih =>
    intro n
    rw [List.foldl_cons]
    exact le_trans (le_max_left n a) (ih (max n a))

theorem foldl_max_mem_le (ns : List Int) :
    ∀ (n x : Int), x ∈ ns → x ≤ ns.foldl max n := by
  induction ns with
  | nil => intro n x hx; simp at hx
  | cons a as ih =>
    intro n x hx
    rw [List.foldl_cons]
    rcases List.mem_cons.mp hx with rfl | h
    · exact le_trans (le_max_right n x) (foldl_max_init_le as (max n x))
    · exact ih _ x h

theorem foldl_max_mem (ns : List Int) : ∀ n : Int, ns.foldl max n ∈ n :: ns := by
  induction ns with
  | nil => intro n; simp
  | cons a as ih =>
    intro n
    rw [List.foldl_cons]
    rcases List.mem_cons.mp (ih (max n a)) with h | h
    · rcases max_choice n a with hm | hm
      · rw [h, hm]; exact List.mem_cons_self _ _
      · rw [h, hm]; exact List.mem_cons_of_mem _ (List.mem_cons_self _ _)
    · exact List.mem_cons_of_mem _ (List.mem_cons_of_mem _ h)

/-- C7: for an item with a declared `range=[lo,hi]`, the observed pair
returned by `__get_minimum_maximum_values__` is the true minimum and
maximum of the column's numeric values, `check_range` appends the "less
than" error exactly when the observed minimum is below `lo` and the
"greater than" error exactly when the observed maximum is above `hi`,
each at most once, and the two co-occur independently. -/
theorem check_range_errors_iff_bounds_violated
    (item : Item) (lo hi dmin dmax : Int) (col : List Value)
    (hr : item.range = some (lo, hi))
    (hmm : get_minimum_maximum_values col = some (dmin, dmax)) :
    (dmin ∈ columnInts col ∧ ∀ x ∈ columnInts col, dmin ≤ x) ∧
    (dmax ∈ columnInts col ∧ ∀ x ∈ columnInts col, x ≤ dmax) ∧
    check_range item (get_minimum_maximum_values col) =
      (if dmin < lo then [msgRangeLess item.name dmin lo] else []) ++
      (if dmax > hi then [msgRangeGreater item.name dmax hi] else []) ∧
    (check_range item (get_minimum_maximum_values col)).length =
      (if dmin < lo then 1 else 0) + (if dmax > hi then 1 else 0) := by
  have h3 : check_range item (get_minimum_maximum_values col) =
      (if dmin < lo then [msgRangeLess item.name dmin lo] else []) ++
      (if dmax > hi then [msgRangeGreater item.name dmax hi] else []) := by
    rw [hmm]
    simp [check_range, hr]
  have h4 : (check_range item (get_minimum_maximum_values col)).length =
      (if dmin < lo then 1 else 0) + (if dmax > hi then 1 else 0) := by
    rw [h3]
    by_cases h1 : dmin < lo <;> by_cases h2 : dmax > hi <;> simp [h1, h2]
  rcases hints : columnInts col with _ | ⟨n, ns⟩
  · rw [get_minimum_maximum_values, hints] at hmm
    simp at hmm
  · rw [get_minimum_maximum_values, hints] at hmm
    simp only [Option.some.injEq, Prod.mk.injEq] at hmm
    obtain ⟨hmin, hmax⟩ := hmm
    refine ⟨⟨?_, ?_⟩, ⟨?_, ?_⟩, h3, h4⟩
    · rw [← hmin]; exact foldl_min_mem ns n
    · intro x hx
      rcases List.mem_cons.mp hx with rfl | h
      · rw [← hmin]; exact foldl_min_le_init ns x
      · rw [← hmin]; exact foldl_min_le_mem ns n x h
    · rw [← hmax]; exact foldl_max_mem ns n
    · intro x hx
      rcases List.mem_cons.mp hx with rfl | h
      · rw [← hmax]; exact foldl_max_init_le ns x
      · rw [← hmax]; exact foldl_max_mem_le ns n x h

/-- C7 witness: a column with minimum 1 and maximum 8 checked against the
declared range [0, 2] yields exactly the "greater than" error. -/
theorem check_range_witness :
    check_range { name := "Discount", range := some (0, 2) }
        (get_minimum_maximum_values [Value.int 1, Value.int 8]) =
      [msgRangeGreater "Discount" 8 2] := by
  have h := check_range_errors_iff_bounds_violated
    { name := "Discount", range := some (0, 2) } 0 2 1 8
    [Value.int 1, Value.int 8] rfl (by decide)
  exact h.2.2.1.trans (by decide)

/-! ### The domain check (C3, C10) -/

/-- C3: for an item with a declared domain, `check_domain` over the
column's distinct values appends exactly one error per distinct data
value outside the domain (not one per row) and exactly one warning per
domain value absent from the data. -/
theorem check_domain_one_error_per_distinct_offender
    (item : Item) (col metaDomain : List Value) (v : Value)
    (hd : item.domain = some metaDomain) (hnd : metaDomain.Nodup) :
    (check_domain item (pdUnique col)).1 =
      ((pdUnique col).filter (fun e => decide (e ∉ metaDomain))).map
        (fun e => msgDomainErr e item.name) ∧
    ((pdUnique col).filter (fun e => decide (e ∉ metaDomain))).count v =
      (if v ∈ col ∧ v ∉ metaDomain then 1 else 0) ∧
    (check_domain item (pdUnique col)).2 =
      (metaDomain.filter (fun e => decide (e ∉ pdUnique col))).map
        (fun e => msgDomainWarn e item.name) ∧
    (metaDomain.filter (fun e => decide (e ∉ pdUnique col))).count v =
      (if v ∈ metaDomain ∧ v ∉ col then 1 else 0) := by
  refine ⟨by simp [check_domain, hd], ?_, by simp [check_domain, hd], ?_⟩
  · by_cases hv : v ∈ metaDomain
    · rw [List.count_eq_zero_of_not_mem, if_neg (by tauto)]
      intro hc
      exact absurd hv (by simpa using (List.mem_filter.mp hc).2)
    · rw [List.count_filter (by simpa using hv), pdUnique_count]
      by_cases hc : v ∈ col
      · rw [if_pos hc, if_pos ⟨hc, hv⟩]
      · rw [if_neg hc, if_neg (by tauto)]
  · by_cases hc : v ∈ col
    · rw [List.count_eq_zero_of_not_mem, if_neg (by tauto)]
      intro hin
      exact absurd ((pdUnique_mem col v).mpr hc)
        (by simpa using (List.mem_filter.mp hin).2)
    · have hnot : v ∉ pdUnique col := fun h => hc ((pdUnique_mem col v).mp h)
      rw [List.count_filter (by simpa using hnot)]
      by_cases hv : v ∈ metaDomain
      · rw [List.count_eq_one_of_mem hnd hv, if_pos ⟨hv, hc⟩]
      · rw [List.count_eq_zero_of_not_mem hv, if_neg (by tauto)]

/-- The Ship Mode scenario: one distinct offending value occurring on two
rows, one declared value missing from the data. -/
def shipModeItem : Item :=
  { name := "Ship Mode"
    domain := some [Value.str "First Class", Value.str "Second Class",
      Value.str "Standard Class"] }

def shipModeCol : List Value :=
  [Value.str "Same Day", Value.str "First Class", Value.str "Same Day",
   Value.str "Standard Class"]

/-- C3 witness. -/
theorem check_domain_witness :
    (check_domain shipModeItem (pdUnique shipModeCol)).1 =
      [msgDomainErr (Value.str "Same Day") "Ship Mode"] ∧
    ((pdUnique shipModeCol).filter
        (fun e => decide (e ∉ [Value.str "First Class", Value.str "Second Class",
          Value.str "Standard Class"]))).count (Value.str "Same Day") = 1 ∧
    (check_domain shipModeItem (pdUnique shipModeCol)).2 =
      [msgDomainWarn (Value.str "Second Class") "Ship Mode"] := by
  have h := check_domain_one_error_per_distinct_offender shipModeItem
    shipModeCol [Value.str "First Class", Value.str "Second Class",
      Value.str "Standard Class"] (Value.str "Same Day") rfl (by decide)
  exact ⟨h.1.trans (by decide), h.2.1.trans (by decide), h.2.2.1.trans (by decide)⟩

/-- C10: a null in a column with a declared domain participates in the
domain check as an ordinary distinct value — when the domain does not
contain the null sentinel, the extra "'None' is not in domain" error is
appended, on top of the null check's own warning (nulls allowed) or error
(nulls disallowed) — whereas `check_pattern_match` skips null values
entirely. -/
theorem null_counts_in_domain_check_but_pattern_skips_nulls
    (item : Item) (metaDomain col : List Value)
    (reMatch : String → String → Bool)
    (hd : item.domain = some metaDomain)
    (hnull : Value.null ∈ col)
    (hnotin : Value.null ∉ metaDomain) :
    msgDomainErr Value.null item.name ∈ (check_domain item (pdUnique col)).1 ∧
    msgDomainErr Value.null item.name =
      "Validation error: 'None' is not in domain of '" ++ item.name ++ "'" ∧
    check_nulls item col true = ([], [msgNullWarn item.name]) ∧
    check_nulls item col false = ([msgNullErr item.name], []) ∧
    (∀ (other : Item) (values : List Value),
      check_pattern_match reMatch other values =
        check_pattern_match reMatch other
          (values.filter (fun w => decide (w ≠ Value.null)))) := by
  have hmemu : Value.null ∈ pdUnique col := (pdUnique_mem col Value.null).mpr hnull
  refine ⟨?_, rfl, ?_, ?_, ?_⟩
  · simp only [check_domain, hd]
    exact List.mem_map.mpr
      ⟨Value.null, List.mem_filter.mpr ⟨hmemu, by simpa using hnotin⟩, rfl⟩
  · simp [check_nulls, hmemu]
  · simp [check_nulls, hmemu]
  · intro other values
    unfold check_pattern_match
    cases hp : other.pattern with
    | none => rfl
    | some pat =>
      show List.map (fun v => msgPattern other.name v pat)
            (values.filter (fun v => decide (v ≠ Value.null) && !reMatch pat v.render)) =
          List.map (fun v => msgPattern other.name v pat)
            ((values.filter (fun w => decide (w ≠ Value.null))).filter
              (fun v => decide (v ≠ Value.null) && !reMatch pat v.render))
      congr 1
      rw [List.filter_filter]
      apply List.filter_congr
      intro a _
      by_cases ha : a = Value.null
      · subst ha; simp
      · simp [ha]

/-- The concrete C10 scenario: a null value, a domain without the null
sentinel. -/
def nullDomainItem : Item :=
  { name := "Postal Code", domain := some [Value.int 92024] }

/-- C10 witness. -/
theorem null_counts_in_domain_check_witness :
    msgDomainErr Value.null "Postal Code" ∈
      (check_domain nullDomainItem
        (pdUnique [Value.null, Value.int 92024])).1 ∧
    check_nulls nullDomainItem [Value.null, Value.int 92024] true =
      ([], [msgNullWarn "Postal Code"]) := by
  have h := null_counts_in_domain_check_but_pattern_skips_nulls nullDomainItem
    [Value.int 92024] [Value.null, Value.int 92024] (fun _ _ => true) rfl
    (by decide) (by decide)
  exact ⟨h.1, h.2.2.1⟩

/-! ### The hierarchy consistency check (C6)

`Validator.__check_hierarchy__` (validation.py lines 72-94) fetches the
hierarchy's deduplicated rows, groups them by all levels but the last
(pandas `groupby(levels[:-1])[levels[-1]].apply(list)`), and walks every
(higher-level tuple, last-level value) pair, keeping the first tuple seen
for each value in a dictionary and recording an error for every later
pair whose tuple differs.  The traversal is modelled directly as the
list of pairs it visits; because the rows are deduplicated, the pairs
are distinct. -/

/-- A recorded hierarchy inconsistency: the value, the tuple stored in
the dictionary at its first occurrence, and the differing tuple. -/
structure HierarchyError where
  value : Value
  first : List Value
  second : List Value
deriving DecidableEq, Repr

/-- Dictionary lookup (`value in hierarchy` / `hierarchy[value]`). -/
def hlookup (dict : List (Value × List Value)) (v : Value) :
    Option (List Value) :=
  (dict.find? (fun p => p.1 == v)).map (fun p => p.2)

/-- The loop of `__check_hierarchy__` (lines 87-94): first occurrence of
a value stores its higher-level tuple; every later pair with a different
tuple records an error against the stored tuple. -/
def hierarchyLoop (dict : List (Value × List Value)) :
    List (List Value × Value) → List HierarchyError
  | [] => []
  | (t, v) :: rest =>
    match hlookup dict v with
    | none => hierarchyLoop (dict ++ [(v, t)]) rest
    | some t0 =>
      if t0 = t then hierarchyLoop dict rest
      else ⟨v, t0, t⟩ :: hierarchyLoop dict rest

/-- Python `repr` of a cell value, as used inside tuple rendering. -/
def Value.pyRepr : Value → String
  | .null => "None"
  | .str s => "'" ++ s ++ "'"
  | .int n => toString n

/-- Python `str` of a tuple of values. -/
def renderPyTuple (ts : List Value) : String :=
  match ts with
  | [t] => "(" ++ t.pyRepr ++ ",)"
  | _ => "(" ++ String.intercalate ", " (ts.map Value.pyRepr) ++ ")"

/-- The error message of `__check_hierarchy__` (line 94). -/
def renderHierarchyError (lastLevel : String) (e : HierarchyError) : String :=
  "Inconsistent hierarchy: " ++ e.value.render ++ " at level " ++ lastLevel ++
    " is represented in multiple higher level categories " ++
    renderPyTuple e.first ++ " and " ++ renderPyTuple e.second ++ "."

/-- `__check_hierarchy__` as a whole: the rendered errors appended for a
hierarchy whose last level is `lastLevel` and whose deduplicated
(higher-levels, last-level) pairs are `pairs`. -/
def check_hierarchy (lastLevel : String) (pairs : List (List Value × Value)) :
    List String :=
  (hierarchyLoop [] pairs).map (renderHierarchyError lastLevel)

theorem hlookup_append_ne (dict : List (Value × List Value)) (w v : Value)
    (t : List Value) (h : w ≠ v) :
    hlookup (dict ++ [(w, t)]) v = hlookup dict v := by
  unfold hlookup
  rw [List.find?_append]
  cases hf : dict.find? (fun p => p.1 == v) with
  | some p => rfl
  | none =>
    simp only [Option.none_or]
    rw [List.find?_cons_of_neg _ (by simpa using h)]
    rfl

theorem hlookup_append_self (dict : List (Value × List Value)) (v : Value)
    (t : List Value) (h : hlookup dict v = none) :
    hlookup (dict ++ [(v, t)]) v = some t := by
  unfold hlookup at h ⊢
  rw [List.find?_append]
  cases hf : dict.find? (fun p => p.1 == v) with
  | some p => rw [hf] at h; simp at h
  | none =>
    simp only [Option.none_or]
    rw [List.find?_cons_of_pos _ (by simp)]
    rfl

theorem hierarchyLoop_cons_none (dict : List (Value × List Value))
    (t : List Value) (v : Value) (rest : List (List Value × Value))
    (h : hlookup dict v = none) :
    hierarchyLoop dict ((t, v) :: rest) =
      hierarchyLoop (dict ++ [(v, t)]) rest := by
  simp only [hierarchyLoop]
  rw [h]

theorem hierarchyLoop_cons_same (dict : List (Value × List Value))
    (t : List Value) (v : Value) (rest : List (List Value × Value))
    (t0 : List Value) (h : hlookup dict v = some t0) (he : t0 = t) :
    hierarchyLoop dict ((t, v) :: rest) = hierarchyLoop dict rest := by
  simp only [hierarchyLoop]
  rw [h]
  show (if t0 = t then hierarchyLoop dict rest
    else ⟨v, t0, t⟩ :: hierarchyLoop dict rest) = hierarchyLoop dict rest
  rw [if_pos he]

theorem hierarchyLoop_cons_diff (dict : List (Value × List Value))
    (t : List Value) (v : Value) (rest : List (List Value × Value))
    (t0 : List Value) (h : hlookup dict v = some t0) (he : t0 ≠ t) :
    hierarchyLoop dict ((t, v) :: rest) =
      ⟨v, t0, t⟩ :: hierarchyLoop dict rest := by
  simp only [hierarchyLoop]
  rw [h]
  show (if t0 = t then hierarchyLoop dict rest
    else ⟨v, t0, t⟩ :: hierarchyLoop dict rest) =
    ⟨v, t0, t⟩ :: hierarchyLoop dict rest
  rw [if_neg he]

/-- The counting invariant of the hierarchy loop: provided the visited
pairs are distinct and the tuple already stored for `v` (if any) does not
reappear among them, the loop records one error for `v` per visited pair
carrying `v` — except that when `v` is not yet in the dictionary its
first pair only stores the tuple. -/
theorem hierarchyLoop_countP (v : Value) :
    ∀ (pairs : List (List Value × Value)) (dict : List (Value × List Value)),
      pairs.Nodup →
      (∀ t0, hlookup dict v = some t0 → (t0, v) ∉ pairs) →
      (hierarchyLoop dict pairs).countP (fun e => e.value == v) =
        (if (hlookup dict v).isSome then
          pairs.countP (fun p => p.2 == v)
        else pairs.countP (fun p => p.2 == v) - 1) := by
  intro pairs
  induction pairs with
  | nil =>
    intro dict _ _
    cases h : hlookup dict v <;> rfl
  | cons p rest ih =>
    intro dict hnd hdisj
    obtain ⟨t, w⟩ := p
    by_cases hwv : w = v
    · subst hwv
      cases hl : hlookup dict w with
      | none =>
        rw [hierarchyLoop_cons_none dict t w rest hl]
        have hnew := hlookup_append_self dict w t hl
        rw [ih (dict ++ [(w, t)]) (List.nodup_cons.mp hnd).2
          (fun t0 ht0 => by
            rw [hnew] at ht0
            cases Option.some.inj ht0
            exact (List.nodup_cons.mp hnd).1)]
        rw [hnew]
        simp [List.countP_cons]
      | some t0 =>
        have hne : t0 ≠ t := by
          intro he
          subst he
          exact (hdisj t0 hl) (List.mem_cons_self _ _)
        rw [hierarchyLoop_cons_diff dict t w rest t0 hl hne]
        have hrec := ih dict (List.nodup_cons.mp hnd).2
          (fun t1 ht1 hin => (hdisj t1 ht1) (List.mem_cons_of_mem _ hin))
        rw [hl] at hrec
        simp only [Option.isSome_some, if_true] at hrec
        simp [List.countP_cons, hrec]
    · have hhd : ((t, w).2 == v) = false := by simpa using hwv
      cases hl : hlookup dict w with
      | none =>
        rw [hierarchyLoop_cons_none dict t w rest hl]
        have hsame := hlookup_append_ne dict w v t hwv
        rw [ih (dict ++ [(w, t)]) (List.nodup_cons.mp hnd).2
          (fun t0 ht0 hin =>
            (hdisj t0 (hsame ▸ ht0)) (List.mem_cons_of_mem _ hin))]
        rw [hsame, List.countP_cons, hhd]
        simp
      | some t0 =>
        have hrec := ih dict (List.nodup_cons.mp hnd).2
          (fun t1 ht1 hin => (hdisj t1 ht1) (List.mem_cons_of_mem _ hin))
        by_cases he : t0 = t
        · rw [hierarchyLoop_cons_same dict t w rest t0 hl he, hrec,
            List.countP_cons, hhd]
          simp
        · rw [hierarchyLoop_cons_diff dict t w rest t0 hl he,
            List.countP_cons, hrec, List.countP_cons, hhd]
          simp [hwv]

/-- C6 counterexample: a last-level value appearing under three distinct
higher-level tuples yields two inconsistency errors — one per extra
combination — not the single error per violating value the claim states.
-/
theorem hierarchy_three_combinations_two_errors_counterexample :
    ([([Value.str "A"], Value.str "v"), ([Value.str "B"], Value.str "v"),
      ([Value.str "C"], Value.str "v")] :
        List (List Value × Value)).Nodup ∧
    (hierarchyLoop []
        [([Value.str "A"], Value.str "v"), ([Value.str "B"], Value.str "v"),
         ([Value.str "C"], Value.str "v")]).countP
      (fun e => e.value == Value.str "v") = 2 ∧
    (check_hierarchy "Product Name"
        [([Value.str "A"], Value.str "v"), ([Value.str "B"], Value.str "v"),
         ([Value.str "C"], Value.str "v")]).length = 2 ∧
    (2 : Nat) ≠ 1 := by
  refine ⟨by decide, rfl, rfl, by decide⟩

/-- C6 (amended): for every declared hierarchy the check records one
"Inconsistent hierarchy" error per extra higher-level combination of a
last-level value beyond the first one seen — a value under k distinct
combinations yields k-1 errors (so exactly one only in the
two-combination case, whose single error names both tuples); never one
per row. -/
theorem hierarchy_one_error_per_extra_combination
    (pairs : List (List Value × Value)) (v : Value) (hnd : pairs.Nodup) :
    (hierarchyLoop [] pairs).countP (fun e => e.value == v) =
      pairs.countP (fun p => p.2 == v) - 1 := by
  have h := hierarchyLoop_countP v pairs [] hnd (by intro t0 ht0; simp [hlookup] at ht0)
  simpa [hlookup] using h

/-- C6 (amended) witness: the two-combination scenario records exactly
one error, and its rendering names both category tuples. -/
theorem hierarchy_one_error_per_extra_combination_witness :
    (hierarchyLoop []
        [([Value.str "Encinitas"], Value.int 92024),
         ([Value.str "San Diego"], Value.int 92024)]).countP
      (fun e => e.value == Value.int 92024) = 1 ∧
    check_hierarchy "Postal Code"
        [([Value.str "Encinitas"], Value.int 92024),
         ([Value.str "San Diego"], Value.int 92024)] =
      ["Inconsistent hierarchy: 92024 at level Postal Code is represented in multiple higher level categories ('Encinitas',) and ('San Diego',)."] := by
  refine ⟨?_, by decide⟩
  have h := hierarchy_one_error_per_extra_combination
    [([Value.str "Encinitas"], Value.int 92024),
     ([Value.str "San Diego"], Value.int 92024)] (Value.int 92024) (by decide)
  exact h.trans (by decide)

/-! ### Presence checks across backends (C5) -/

/-- The C5 item: logical name "A", output name "B". -/
def renamedItem : Item := { name := "A", output_name := some "B" }

/-- C5 counterexample: with the physical column "B" present in the store,
the frame and hyper backends resolve and find it, but the SQL backend
looks up the logical name "A" in the information-schema column list and
wrongly records the missing-column error. -/
theorem sql_presence_ignores_output_name_counterexample :
    renamedItem.get_column_name = "B" ∧
    "B" ∈ ["B"] ∧
    check_column_present ⟨[("B", ⟨"int64", [Value.int 1]⟩)]⟩ renamedItem =
      ([], true) ∧
    hyper_check_column_present ["B"] renamedItem = ([], true) ∧
    sql_check_column_present ["B"] renamedItem = ([msgMissing "A"], false) := by
  decide

/-- C5 (amended): for a non-calculated item, the frame and hyper backends
decide presence by looking up the resolved physical column name
(`output_name`, else `physical_column_name`, else the logical name) in
the store, while the SQL backend decides presence by looking up the
item's logical name, ignoring the resolution; in every backend an absence
records the single missing-column error. -/
theorem presence_check_name_resolution_per_backend
    (f : Frame) (hyperColumns sqlColumns : List String) (item : Item)
    (hform : item.formula = none) :
    check_column_present f item =
      (if item.get_column_name ∈ f.columns then ([], true)
       else ([msgMissing item.name], false)) ∧
    hyper_check_column_present hyperColumns item =
      (if item.get_column_name ∈ hyperColumns then ([], true)
       else ([msgMissing item.name], false)) ∧
    sql_check_column_present sqlColumns item =
      (if item.name ∈ sqlColumns then ([], true)
       else ([msgMissing item.name], false)) := by
  refine ⟨?_, ?_, ?_⟩ <;>
    simp only [check_column_present, hyper_check_column_present,
      sql_check_column_present, hform]

/-- C5 (amended) witness. -/
theorem presence_check_name_resolution_witness :
    check_column_present ⟨[("B", ⟨"int64", [Value.int 1]⟩)]⟩ renamedItem =
      ([], true) ∧
    sql_check_column_present ["B", "A"] renamedItem = ([], true) := by
  have h := presence_check_name_resolution_per_backend
    ⟨[("B", ⟨"int64", [Value.int 1]⟩)]⟩ ["B"] ["B", "A"] renamedItem rfl
  exact ⟨h.1.trans (by decide), h.2.2.trans (by decide)⟩

/-! ### Metadata serialisation (C8)

`mario/metadata.py` stores an `Item` as a name, a description and a
dynamic property bag (`mario/base.py`); `Metadata` additionally owns a
list of items.  `Item.to_json`, `Metadata.save` and `metadata_from_json`
are modelled over a JSON value type, with Python dicts as
insertion-ordered association lists (`json.dump`/`json.load` preserve
that order). -/

/-- A JSON value. -/
inductive JVal where
  | jnull : JVal
  | jbool : Bool → JVal
  | jnum : Int → JVal
  | jstr : String → JVal
  | jarr : List JVal → JVal
  | jobj : List (String × JVal) → JVal

/-- A metadata `Item` for serialisation purposes: name, description and
the full dynamic property bag. -/
structure SItem where
  name : String
  description : String
  properties : List (String × JVal)

/-- A `Metadata` collection: an `Item` (name, description, properties)
owning a list of items. -/
structure SMetadata where
  name : String
  description : String
  properties : List (String × JVal)
  items : List SItem

/-- Python dict assignment `d[key] = v` on an insertion-ordered dict:
replace in place when the key exists, append otherwise. -/
def dictInsert (d : List (String × JVal)) (key : String) (v : JVal) :
    List (String × JVal) :=
  if d.any (fun kv => kv.1 == key) then
    d.map (fun kv => if kv.1 == key then (key, v) else kv)
  else d ++ [(key, v)]

/-- `Item.to_json` (metadata.py lines 29-36): start from
`{"name": ..., "description": ...}` and assign every property. -/
def SItem.to_json (it : SItem) : JVal :=
  JVal.jobj (it.properties.foldl (fun d kv => dictInsert d kv.1 kv.2)
    [("name", JVal.jstr it.name), ("description", JVal.jstr it.description)])

/-- The `items` array fill of `Metadata.save` (lines 99-100): the list
object stored under `"items"` is appended to in place after the
properties were assigned. -/
def setItemsArray (d : List (String × JVal)) (itemsJson : List JVal) :
    List (String × JVal) :=
  d.map (fun kv =>
    if kv.1 == "items" then
      match kv.2 with
      | JVal.jarr xs => ("items", JVal.jarr (xs ++ itemsJson))
      | _ => kv
    else kv)

/-- `Metadata.save` (metadata.py lines 89-103): build
`{"collection": {"name": ..., "items": []}}`, assign every collection
property, then append every item's JSON to the `items` array.  (The
file write is I/O; the JSON value written is returned.  The collection's
own description is not written.) -/
def SMetadata.save (m : SMetadata) : JVal :=
  JVal.jobj [("collection", JVal.jobj (setItemsArray
    (m.properties.foldl (fun d kv => dictInsert d kv.1 kv.2)
      [("name", JVal.jstr m.name), ("items", JVal.jarr [])])
    (m.items.map SItem.to_json)))]

/-- Python `key in d` / `d[key]` on a JSON object. -/
def jlookup (fields : List (String × JVal)) (key : String) : Option JVal :=
  (fields.find? (fun kv => kv.1 == key)).map (fun kv => kv.2)

/-- The per-item part of `metadata_from_json` (lines 126-132): name from
`item[name]`, description when present, and `add_properties` with `name`
and `description` excluded (`MarioBase.add_properties` copies every
non-excluded source key in order into the fresh property dict).  Failure
models the `KeyError` on a missing or non-string name. -/
def parseItem (nameKey : String) (itemJson : JVal) : Option SItem :=
  match itemJson with
  | JVal.jobj fields =>
    match jlookup fields nameKey with
    | some (JVal.jstr n) =>
      some { name := n
             description :=
               match jlookup fields "description" with
               | some (JVal.jstr d) => d
               | _ => ""
             properties := fields.filter
               (fun kv => !(kv.1 == nameKey) && !(kv.1 == "description")) }
    | _ => none
  | _ => none

/-- The collection part of `metadata_from_json` (lines 113-132): the
collection name is read from `"name"` in both branches, `add_properties`
excludes `[name, items]`, and every entry of the items array is parsed.
The reconstructed collection's description is never set. -/
def parseCollection (nameKey itemsKey : String)
    (coll : List (String × JVal)) : Option SMetadata :=
  match jlookup coll "name" with
  | some (JVal.jstr n) =>
    match jlookup coll itemsKey with
    | some (JVal.jarr itemsJson) =>
      match itemsJson.mapM (parseItem nameKey) with
      | some items =>
        some { name := n
               description := ""
               properties := coll.filter
                 (fun kv => !(kv.1 == nameKey) && !(kv.1 == itemsKey))
               items := items }
      | none => none
    | _ => none
  | _ => none

/-- `metadata_from_json` (metadata.py lines 106-134): dispatch on the
`"collection"` key (modern shape, item key `"name"`, items key
`"items"`), else the `"datasource"` legacy shape (item key `"fieldName"`,
items key `"fields"`); failure models the Python exceptions on malformed
input. -/
def metadata_from_json (j : JVal) : Option SMetadata :=
  match j with
  | JVal.jobj top =>
    match jlookup top "collection" with
    | some (JVal.jobj coll) => parseCollection "name" "items" coll
    | some _ => none
    | none =>
      match jlookup top "datasource" with
      | some (JVal.jobj coll) => parseCollection "fieldName" "fields" coll
      | _ => none
  | _ => none

theorem dictInsert_fresh (d : List (String × JVal)) (k : String) (v : JVal)
    (h : k ∉ d.map Prod.fst) : dictInsert d k v = d ++ [(k, v)] := by
  have hc : ¬ (d.any (fun kv => kv.1 == k) = true) := by
    intro hc
    obtain ⟨kv, hkv, hb⟩ := List.any_eq_true.mp hc
    exact h (List.mem_map.mpr ⟨kv, hkv, by simpa using hb⟩)
  unfold dictInsert
  rw [if_neg hc]

theorem foldl_dictInsert_fresh :
    ∀ (ps base : List (String × JVal)),
      (ps.map Prod.fst).Nodup →
      (∀ k ∈ ps.map Prod.fst, k ∉ base.map Prod.fst) →
      ps.foldl (fun d kv => dictInsert d kv.1 kv.2) base = base ++ ps := by
  intro ps
  induction ps with
  | nil => intro base _ _; simp
  | cons p rest ih =>
    intro base hnd hfresh
    have hnd2 : p.1 ∉ rest.map Prod.fst ∧ (rest.map Prod.fst).Nodup := by
      rw [List.map_cons] at hnd
      exact List.nodup_cons.mp hnd
    have hstep : dictInsert base p.1 p.2 = base ++ [p] :=
      dictInsert_fresh base p.1 p.2 (hfresh p.1 (by simp))
    have hrest : ∀ k ∈ rest.map Prod.fst, k ∉ (base ++ [p]).map Prod.fst := by
      intro k hk
      simp only [List.map_append, List.mem_append]
      rintro (hbase | hp)
      · exact hfresh k (by simp [hk]) hbase
      · have hkp : k = p.1 := by simpa using hp
        exact hnd2.1 (hkp ▸ hk)
    rw [List.foldl_cons, hstep, ih (base ++ [p]) hnd2.2 hrest]
    simp

theorem map_id_of_mem {α : Type} (f : α → α) :
    ∀ l : List α, (∀ x ∈ l, f x = x) → l.map f = l := by
  intro l
  induction l with
  | nil => intro _; rfl
  | cons x xs ih =>
    intro h
    rw [List.map_cons, h x (by simp), ih (fun y hy => h y (by simp [hy]))]

theorem setItemsArray_heads (n : String) (props : List (String × JVal))
    (itemsJson : List JVal) (h : "items" ∉ props.map Prod.fst) :
    setItemsArray ([("name", JVal.jstr n), ("items", JVal.jarr [])] ++ props)
        itemsJson =
      [("name", JVal.jstr n), ("items", JVal.jarr itemsJson)] ++ props := by
  unfold setItemsArray
  simp only [List.cons_append, List.nil_append, List.map_cons]
  rw [if_neg (fun h => Bool.noConfusion h),
    if_pos (show (("items" : String) == "items") = true from rfl)]
  rw [map_id_of_mem _ props (fun kv hkv => by
    have hk : ¬ (kv.1 == "items") = true := by
      simp only [beq_iff_eq]
      intro he
      exact h (List.mem_map.mpr ⟨kv, hkv, he⟩)
    rw [if_neg hk])]

theorem parseItem_to_json (it : SItem)
    (hnd : (it.properties.map Prod.fst).Nodup)
    (hname : "name" ∉ it.properties.map Prod.fst)
    (hdesc : "description" ∉ it.properties.map Prod.fst) :
    parseItem "name" (SItem.to_json it) = some it := by
  have hfold : it.properties.foldl (fun d kv => dictInsert d kv.1 kv.2)
      [("name", JVal.jstr it.name), ("description", JVal.jstr it.description)] =
      ("name", JVal.jstr it.name) :: ("description", JVal.jstr it.description) ::
        it.properties := by
    have := foldl_dictInsert_fresh it.properties
      [("name", JVal.jstr it.name), ("description", JVal.jstr it.description)]
      hnd ?_
    · simpa using this
    · intro k hk
      simp only [List.map_cons, List.map_nil, List.mem_cons, List.not_mem_nil,
        or_false]
      rintro (rfl | rfl)
      · exact hname hk
      · exact hdesc hk
  have h1 : jlookup (("name", JVal.jstr it.name) ::
      ("description", JVal.jstr it.description) :: it.properties) "name" =
      some (JVal.jstr it.name) := by
    unfold jlookup
    rw [List.find?_cons_of_pos _ rfl]
    rfl
  have h2 : jlookup (("name", JVal.jstr it.name) ::
      ("description", JVal.jstr it.description) :: it.properties) "description" =
      some (JVal.jstr it.description) := by
    unfold jlookup
    rw [List.find?_cons_of_neg _ (fun h => Bool.noConfusion h),
      List.find?_cons_of_pos _ rfl]
    rfl
  have h3 : (("name", JVal.jstr it.name) ::
      ("description", JVal.jstr it.description) :: it.properties).filter
        (fun kv => !(kv.1 == "name") && !(kv.1 == "description")) =
      it.properties := by
    rw [List.filter_cons_of_neg (fun h => Bool.noConfusion h),
      List.filter_cons_of_neg (fun h => Bool.noConfusion h)]
    apply List.filter_eq_self.mpr
    intro kv hkv
    have hk1 : kv.1 ≠ "name" := fun he => hname (List.mem_map.mpr ⟨kv, hkv, he⟩)
    have hk2 : kv.1 ≠ "description" :=
      fun he => hdesc (List.mem_map.mpr ⟨kv, hkv, he⟩)
    simp [hk1, hk2]
  unfold SItem.to_json
  rw [hfold]
  simp only [parseItem, h1, h2, h3]

theorem mapM_parseItem_map (items : List SItem)
    (h : ∀ it ∈ items, parseItem "name" (SItem.to_json it) = some it) :
    (items.map SItem.to_json).mapM (parseItem "name") = some items := by
  induction items with
  | nil => rfl
  | cons it rest ih =>
    rw [List.map_cons, List.mapM_cons, h it (by simp),
      ih (fun x hx => h x (by simp [hx]))]
    rfl

/-- C8: saving a metadata collection and reloading it reconstructs the
same collection name, the same items in the same order, and for every
item the same name, description and property content, including
arbitrary custom properties — provided the property keys stay clear of
the structural JSON keys (`name`/`items` at collection level,
`name`/`description` at item level), which real property bags (Python
dicts with those keys reserved) do.  The collection's own description is
not serialised and reloads empty. -/
theorem metadata_save_roundtrip (m : SMetadata)
    (hmnd : (m.properties.map Prod.fst).Nodup)
    (hmname : "name" ∉ m.properties.map Prod.fst)
    (hmitems : "items" ∉ m.properties.map Prod.fst)
    (hit : ∀ it ∈ m.items, (it.properties.map Prod.fst).Nodup ∧
      "name" ∉ it.properties.map Prod.fst ∧
      "description" ∉ it.properties.map Prod.fst) :
    metadata_from_json (SMetadata.save m) =
      some { name := m.name, description := "", properties := m.properties,
             items := m.items } := by
  have hfold : m.properties.foldl (fun d kv => dictInsert d kv.1 kv.2)
      [("name", JVal.jstr m.name), ("items", JVal.jarr [])] =
      [("name", JVal.jstr m.name), ("items", JVal.jarr [])] ++ m.properties := by
    apply foldl_dictInsert_fresh m.properties _ hmnd
    intro k hk
    simp only [List.map_cons, List.map_nil, List.mem_cons, List.not_mem_nil,
      or_false]
    rintro (rfl | rfl)
    · exact hmname hk
    · exact hmitems hk
  have hcoll : setItemsArray
      ([("name", JVal.jstr m.name), ("items", JVal.jarr [])] ++ m.properties)
      (m.items.map SItem.to_json) =
      ("name", JVal.jstr m.name) ::
        ("items", JVal.jarr (m.items.map SItem.to_json)) :: m.properties := by
    rw [setItemsArray_heads m.name m.properties (m.items.map SItem.to_json)
      hmitems]
    rfl
  have htop : jlookup [("collection", JVal.jobj
      (("name", JVal.jstr m.name) ::
        ("items", JVal.jarr (m.items.map SItem.to_json)) :: m.properties))]
      "collection" =
      some (JVal.jobj (("name", JVal.jstr m.name) ::
        ("items", JVal.jarr (m.items.map SItem.to_json)) :: m.properties)) := by
    unfold jlookup
    rw [List.find?_cons_of_pos _ rfl]
    rfl
  have h1 : jlookup (("name", JVal.jstr m.name) ::
      ("items", JVal.jarr (m.items.map SItem.to_json)) :: m.properties) "name" =
      some (JVal.jstr m.name) := by
    unfold jlookup
    rw [List.find?_cons_of_pos _ rfl]
    rfl
  have h2 : jlookup (("name", JVal.jstr m.name) ::
      ("items", JVal.jarr (m.items.map SItem.to_json)) :: m.properties) "items" =
      some (JVal.jarr (m.items.map SItem.to_json)) := by
    unfold jlookup
    rw [List.find?_cons_of_neg _ (fun h => Bool.noConfusion h),
      List.find?_cons_of_pos _ rfl]
    rfl
  have h3 : (("name", JVal.jstr m.name) ::
      ("items", JVal.jarr (m.items.map SItem.to_json)) :: m.properties).filter
        (fun kv => !(kv.1 == "name") && !(kv.1 == "items")) = m.properties := by
    rw [List.filter_cons_of_neg (fun h => Bool.noConfusion h),
      List.filter_cons_of_neg (fun h => Bool.noConfusion h)]
    apply List.filter_eq_self.mpr
    intro kv hkv
    have hk1 : kv.1 ≠ "name" := fun he => hmname (List.mem_map.mpr ⟨kv, hkv, he⟩)
    have hk2 : kv.1 ≠ "items" := fun he => hmitems (List.mem_map.mpr ⟨kv, hkv, he⟩)
    simp [hk1, hk2]
  have hmapM : (m.items.map SItem.to_json).mapM (parseItem "name") =
      some m.items :=
    mapM_parseItem_map m.items (fun it hin =>
      parseItem_to_json it (hit it hin).1 (hit it hin).2.1 (hit it hin).2.2)
  unfold SMetadata.save
  rw [hfold, hcoll]
  simp only [metadata_from_json, htop, parseCollection, h1, h2, hmapM, h3]

/-- The C8 witness collection: one collection property, two items, one
with a custom property the recogniser does not know. -/
def sampleMetadata : SMetadata :=
  { name := "Superstore"
    description := ""
    properties := [("source", JVal.jstr "orders.csv")]
    items :=
      [{ name := "Ship Mode", description := "How shipped"
         properties := [("datatype", JVal.jstr "text"),
           ("myCustomFlag", JVal.jbool true)] },
       { name := "Discount", description := ""
         properties := [("range", JVal.jarr [JVal.jnum 0, JVal.jnum 2])] }] }

/-- C8 witness: the round trip applied to `sampleMetadata`. -/
theorem metadata_save_roundtrip_witness :
    metadata_from_json (SMetadata.save sampleMetadata) =
      some { name := "Superstore", description := ""
             properties := [("source", JVal.jstr "orders.csv")]
             items := sampleMetadata.items } := by
  exact metadata_save_roundtrip sampleMetadata (by decide) (by decide)
    (by decide) (by decide)

/-! ### The streaming data extractor (C9)

`StreamingDataExtractor` (data_extractor.py lines 313-457) holds the
configuration, specification, metadata and the `_data` cache (a frame or
`None`).  The SQL connection, query building and the hyper/CSV writes
are I/O and are elided: a streaming run is modelled over the list of row
chunks the database cursor yields. -/

structure StreamingDataExtractor where
  dataset_specification : DatasetSpecification
  metadata : Metadata
  data : Option Frame
deriving DecidableEq, Repr

/-- `StreamingDataExtractor.__init__` (lines 319-325): `_data` starts as
`None`. -/
def StreamingDataExtractor.init (spec : DatasetSpecification) (md : Metadata) :
    StreamingDataExtractor :=
  ⟨spec, md, none⟩

/-- `DataExtractor.__minimise_data__` (lines 118-124): keep, in
specification order, the resolved column of every item that resolves in
the metadata and is not calculated; re-indexing the frame by those
columns raises `KeyError` when one is missing (modelled as `none`). -/
def minimiseData (spec : DatasetSpecification) (md : Metadata) (f : Frame) :
    Option Frame :=
  let keep := spec.items.filterMap (fun it =>
    match md.get_metadata it with
    | some meta =>
      match meta.formula with
      | none => some meta.get_column_name
      | some _ => none
    | none => none)
  (keep.mapM (fun c => (f.col? c).map (fun col => (c, col)))).map Frame.mk

/-- `DataExtractor.get_data_frame` (lines 152-157) as reached through the
streaming subclass: the cache is already set (the `__load__` path
performs file/database I/O and is unreachable from the claims' states);
with `minimise` the cached frame is replaced by its minimised form and
returned. -/
def DataExtractor.get_data_frame (x : StreamingDataExtractor)
    (minimise : Bool) : Option (StreamingDataExtractor × Frame) :=
  match x.data with
  | none => none
  | some f =>
    if minimise then
      (minimiseData x.dataset_specification x.metadata f).map
        (fun f2 => ({ x with data := some f2 }, f2))
    else some (x, f)

/-- `StreamingDataExtractor.get_data_frame` (lines 327-331): raise with
the streaming message unless a frame is cached in `_data`; otherwise
delegate to the base implementation (whose missing-column `KeyError`
during minimisation is modelled as a distinct error). -/
def StreamingDataExtractor.get_data_frame (x : StreamingDataExtractor)
    (minimise : Bool) : Except String (StreamingDataExtractor × Frame) :=
  match x.data with
  | none =>
    Except.error "Dataframe is not available when using a streaming extractor"
  | some _ =>
    match DataExtractor.get_data_frame x minimise with
    | some r => Except.ok r
    | none => Except.error "KeyError"

/-- `DataExtractor.validate_data` (lines 143-150) as dispatched on a
streaming instance whose `_data` is set: build a fresh
`DataFrameValidator` over `self.get_data_frame()` (which minimises the
cached chunk as a side effect) and run it; a validation failure
propagates as the raised `ValueError`, an unresolved item as the raised
`AttributeError`. -/
def streamingValidateLoaded (reMatch : String → String → Bool)
    (x : StreamingDataExtractor) (allow_nulls : Bool) :
    Except String StreamingDataExtractor :=
  match StreamingDataExtractor.get_data_frame x true with
  | Except.error e => Except.error e
  | Except.ok (x2, f) =>
    match validate_data reMatch
        ⟨x.dataset_specification, x.metadata, f, [], []⟩ allow_nulls with
    | none => Except.error "AttributeError"
    | some (_, _, Except.error e) => Except.error e
    | some (_, _, Except.ok _) => Except.ok x2

/-- One chunk of `StreamingDataExtractor.stream_sql_to_hyper`
(lines 409-417): with `validate` or `minimise` the chunk is first cached
in `_data`, then validated (`self.validate_data`, which on a loaded
streaming instance delegates to the base implementation) and/or
minimised in place; finally the chunk is written to the hyper file
(I/O, elided). -/
def streamStep (reMatch : String → String → Bool)
    (validate allow_nulls minimise : Bool) (x : StreamingDataExtractor)
    (df : Frame) : Except String StreamingDataExtractor :=
  if validate || minimise then do
    let x1 := { x with data := some df }
    let x2 ← if validate then streamingValidateLoaded reMatch x1 allow_nulls
      else pure x1
    let x3 ← if minimise then
        match x2.data with
        | some f =>
          match minimiseData x2.dataset_specification x2.metadata f with
          | some f2 => pure { x2 with data := some f2 }
          | none => Except.error "KeyError"
        | none => Except.error "KeyError"
      else pure x2
    pure x3
  else pure x

/-- `StreamingDataExtractor.stream_sql_to_hyper` (lines 389-417) over the
chunk sequence the SQL cursor yields (`pd.read_sql(..., chunksize=...)`);
query building and the per-chunk hyper append are I/O, elided.  The
`_data` cache evolves chunk by chunk and is not cleared afterwards. -/
def stream_sql_to_hyper (reMatch : String → String → Bool)
    (x : StreamingDataExtractor) (chunks : List Frame)
    (validate allow_nulls minimise : Bool) :
    Except String StreamingDataExtractor :=
  chunks.foldlM (streamStep reMatch validate allow_nulls minimise) x

/-- The C9 scenario: one item, one clean chunk containing its column. -/
def streamX0 : StreamingDataExtractor :=
  StreamingDataExtractor.init ⟨["a"], []⟩ ⟨[{ name := "a" }]⟩

def streamChunk : Frame := ⟨[("a", ⟨"int64", [Value.int 1]⟩)]⟩

/-- C9 counterexample: after `stream_sql_to_hyper` with `validate=True`
the last processed chunk stays cached in `_data`, and a subsequent
`get_data_frame` call returns that chunk instead of failing with the
streaming message — so the failure is not unconditional over the
extractor's prior operations. -/
theorem streaming_get_data_frame_after_streaming_counterexample :
    stream_sql_to_hyper (fun _ _ => true) streamX0 [streamChunk]
        true true false =
      Except.ok { streamX0 with data := some streamChunk } ∧
    StreamingDataExtractor.get_data_frame
        { streamX0 with data := some streamChunk } true =
      Except.ok ({ streamX0 with data := some streamChunk }, streamChunk) ∧
    (Except.ok ({ streamX0 with data := some streamChunk }, streamChunk) :
        Except String (StreamingDataExtractor × Frame)) ≠
      Except.error "Dataframe is not available when using a streaming extractor" :=
  ⟨rfl, rfl, fun h => Except.noConfusion h⟩

/-- C9 (amended): `StreamingDataExtractor.get_data_frame` fails with
"Dataframe is not available when using a streaming extractor" exactly
when no chunk is cached in `_data`; a freshly constructed streaming
extractor therefore always fails, but a streaming run with `validate` or
`minimise` leaves the last processed chunk cached, after which the call
returns that cached chunk (never the full result set). -/
theorem streaming_get_data_frame_error_iff_no_cached_data :
    (∀ (x : StreamingDataExtractor) (minimise : Bool),
      StreamingDataExtractor.get_data_frame x minimise =
          Except.error "Dataframe is not available when using a streaming extractor" ↔
        x.data = none) ∧
    (∀ (spec : DatasetSpecification) (md : Metadata) (minimise : Bool),
      StreamingDataExtractor.get_data_frame
          (StreamingDataExtractor.init spec md) minimise =
        Except.error "Dataframe is not available when using a streaming extractor") := by
  have hmain : ∀ (x : StreamingDataExtractor) (minimise : Bool),
      StreamingDataExtractor.get_data_frame x minimise =
          Except.error "Dataframe is not available when using a streaming extractor" ↔
        x.data = none := by
    intro x minimise
    cases hd : x.data with
    | none => simp [StreamingDataExtractor.get_data_frame, hd]
    | some f =>
      simp only [StreamingDataExtractor.get_data_frame, hd]
      constructor
      · intro h
        cases hg : DataExtractor.get_data_frame x minimise with
        | some r =>
          rw [hg] at h
          exact Except.noConfusion h
        | none =>
          rw [hg] at h
          exact absurd (Except.error.inj h) (by decide)
      · intro h
        exact Option.noConfusion h
  exact ⟨hmain, fun spec md minimise =>
    (hmain (StreamingDataExtractor.init spec md) minimise).mpr rfl⟩

end Mario
